import Mathlib

/-!
Shallow embedding of the lushus-session repository core: the
`SessionKey` / `SessionState` / `Session` data model, the typed `Storage`
accessors, the `Command` → Redis wire translation, the Redis-backed
`Store` operations (`load` / `save` / `update`), the `SessionModel`
create-vs-update dispatch, and `SessionKey::generate`.

Rust mutation is rendered as explicit state passing: a method taking
`&mut self` becomes a function returning the new value; fallible code
returns `Except`.  The external serde_json (de)serializers are modelled
as explicit codec parameters, mirroring the generic `T: Serialize +
DeserializeOwned` bounds and the serde_json calls of the source.
-/

/-- Rust `std::time::Duration`: whole seconds plus a sub-second
nanosecond component (`Duration::new(secs, nanos)`). -/
structure Duration where
  secs : Nat
  nanos : Nat
deriving DecidableEq, Repr

/-- Rust `Duration::as_secs`: the whole-seconds part, sub-second part
truncated away. -/
def Duration.as_secs (d : Duration) : Nat :=
  d.secs

/-- `SessionKey(String)` from src/session_store/session_key.rs: an opaque
string identifier. -/
structure SessionKey where
  val : String
deriving DecidableEq, Repr

/-- `SessionKey::as_ref` / `to_string`: the raw string representation. -/
def SessionKey.as_ref (k : SessionKey) : String :=
  k.val

/-- `SessionState(HashMap<String, String>)` from src/session_state.rs,
modelled as an association list with unique keys (insertion replaces). -/
structure SessionState where
  map : List (String × String)
deriving DecidableEq, Repr

/-- `SessionState::insert` (src/session_state.rs): stores `value` under
`key`, replacing any previous entry; the previous value is discarded
(the Rust method returns `()`; the `HashMap::insert` result is dropped). -/
def SessionState.insert (s : SessionState) (key : String) (value : String) : SessionState :=
  ⟨(key, value) :: s.map.filter (fun p => p.fst != key)⟩

/-- `SessionState::get` (src/session_state.rs). -/
def SessionState.get (s : SessionState) (key : String) : Option String :=
  s.map.lookup key

/-- `SessionState::remove` (src/session_state.rs): removes the entry and
returns the removed value, if any, together with the updated state. -/
def SessionState.remove (s : SessionState) (key : String) : Option String × SessionState :=
  (s.map.lookup key, ⟨s.map.filter (fun p => p.fst != key)⟩)

/-- `SessionState::contains_key` (src/session_state.rs). -/
def SessionState.contains_key (s : SessionState) (key : String) : Bool :=
  (s.map.lookup key).isSome

/-- `Session { id, state }` from src/session.rs. -/
structure Session where
  id : SessionKey
  state : SessionState
deriving DecidableEq, Repr

/-- A (de)serializer pair for a field type `T`, standing for the
serde_json `to_string` / `from_str` calls the source makes at a generic
`T: Serialize + DeserializeOwned`; errors carry the cause string
(`e.to_string()` in the source). -/
structure Codec (α : Type) where
  encode : α → Except String String
  decode : String → Except String α

/-- `StorageInsertError` from src/storage.rs. -/
inductive StorageInsertError where
  | SerializeError (key : String) (cause : String)
deriving DecidableEq, Repr

/-- `StorageGetError` from src/storage.rs. -/
inductive StorageGetError where
  | DeserializeError (key : String) (cause : String)
deriving DecidableEq, Repr

/-- `StorageRemoveError` from src/storage.rs. -/
inductive StorageRemoveError where
  | DeserializeError (key : String) (cause : String)
deriving DecidableEq, Repr

/-- `StorageError` from src/storage.rs: the three sub-errors, wrapped. -/
inductive StorageError where
  | insertErr (e : StorageInsertError)
  | getErr (e : StorageGetError)
  | removeErr (e : StorageRemoveError)
deriving DecidableEq, Repr

/-- `<Session as Storage<&str>>::insert` (src/session.rs): serialize the
value (failure → `StorageInsertError::SerializeError(key, cause)`), then
store the serialized string in the state.  The Rust method returns
`Ok(())`; the returned `Session` is the mutated receiver. -/
def Session.insert (c : Codec α) (s : Session) (key : String) (value : α) :
    Except StorageError Session :=
  match c.encode value with
  | .error e => .error (StorageError.insertErr (StorageInsertError.SerializeError key e))
  | .ok ins => .ok { s with state := s.state.insert key ins }

/-- `<Session as Storage<&str>>::get` (src/session.rs): look the raw
value up and deserialize it; a decode failure is
`StorageGetError::DeserializeError(key, cause)`. -/
def Session.get (c : Codec α) (s : Session) (key : String) :
    Except StorageError (Option α) :=
  match s.state.get key with
  | none => .ok none
  | some v =>
    match c.decode v with
    | .ok t => .ok (some t)
    | .error e => .error (StorageError.getErr (StorageGetError.DeserializeError key e))

/-- `<Session as Storage<&str>>::remove` (src/session.rs): the state is
mutated (entry removed) before the removed value is deserialized, so the
returned session has the entry removed even when decoding fails. -/
def Session.remove (c : Codec α) (s : Session) (key : String) :
    Except StorageError (Option α) × Session :=
  let (prev, st2) := s.state.remove key
  let s2 : Session := { s with state := st2 }
  match prev with
  | none => (.ok none, s2)
  | some v =>
    match c.decode v with
    | .ok t => (.ok (some t), s2)
    | .error e => (.error (StorageError.removeErr (StorageRemoveError.DeserializeError key e)), s2)

/-- `Command` from src/redis_store/commands.rs. -/
inductive Command where
  | Delete (key : String)
  | Exists (key : String)
  | Get (key : String)
  | Set (key : String) (value : String) (ttl : Duration)
  | TTL (key : String)
  | Update (key : String) (value : String) (ttl : Duration)
deriving DecidableEq, Repr

/-- `redis::Cmd`: the command under construction, as its argument list. -/
structure RedisCmd where
  args : List String
deriving DecidableEq, Repr

/-- `redis::cmd(name)`: start a command with the given name. -/
def redisCmd (name : String) : RedisCmd :=
  ⟨[name]⟩

/-- `redis::Cmd::arg(&[...])`: append arguments. -/
def RedisCmd.arg (c : RedisCmd) (xs : List String) : RedisCmd :=
  ⟨c.args ++ xs⟩

/-- `impl From<Command> for redis::Cmd` (src/redis_store/commands.rs):
each store operation becomes one wire command; the `format!("{}",
ttl.as_secs())` argument is the TTL in whole seconds, rendered in
decimal. -/
def Command.toRedisCmd : Command → RedisCmd
  | .Delete key => (redisCmd "DEL").arg [key]
  | .Exists key => (redisCmd "EXISTS").arg [key]
  | .Get key => (redisCmd "GET").arg [key]
  | .Set key value ttl =>
      (redisCmd "SET").arg [key, value, "NX", "EX", toString ttl.as_secs]
  | .TTL key => (redisCmd "TTL").arg [key]
  | .Update key value ttl =>
      (redisCmd "SET").arg [key, value, "XX", "EX", toString ttl.as_secs]

/-- The wire argument lists, written from the spec table (§4.6 / §6),
independently of the builder-based source translation; compared with
`Command.toRedisCmd` in the C3 theorem. -/
def specCommandWire : Command → List String
  | .Get key => ["GET", key]
  | .Set key value ttl => ["SET", key, value, "NX", "EX", toString ttl.as_secs]
  | .Update key value ttl => ["SET", key, value, "XX", "EX", toString ttl.as_secs]
  | .Delete key => ["DEL", key]
  | .Exists key => ["EXISTS", key]
  | .TTL key => ["TTL", key]

/-- `redis::Value` (response values the store code matches on). -/
inductive RedisValue where
  | Nil
  | Okay
  | Int (i : Int)
  | Data (s : String)
  | Status (s : String)
deriving DecidableEq, Repr

/-- One stored record in the backend: the value string and the TTL in
seconds attached at the conditional write. -/
structure RedisRecord where
  value : String
  ttlSecs : Nat
deriving DecidableEq, Repr

/-- Modelled from the spec: the external key-value backend state (§6),
a map from record key to stored record, as an association list with
unique keys. -/
structure RedisState where
  entries : List (String × RedisRecord)
deriving DecidableEq, Repr

def RedisState.lookup (st : RedisState) (k : String) : Option RedisRecord :=
  st.entries.lookup k

def RedisState.setRecord (st : RedisState) (k : String) (r : RedisRecord) : RedisState :=
  ⟨(k, r) :: st.entries.filter (fun p => p.fst != k)⟩

def RedisState.delRecord (st : RedisState) (k : String) : RedisState :=
  ⟨st.entries.filter (fun p => p.fst != k)⟩

/-- Modelled from the spec: the backend wire protocol of §6 — `GET`
answers bulk string or nil; conditional `SET` answers `OK`, or nil when
the NX/XX condition fails; `DEL`/`EXISTS` answer integers; `TTL` answers
the remaining seconds or a negative sentinel for a missing key. -/
def redisExec (st : RedisState) : Command → RedisValue × RedisState
  | .Get k =>
    match st.lookup k with
    | some r => (.Data r.value, st)
    | none => (.Nil, st)
  | .Set k v ttl =>
    match st.lookup k with
    | some _ => (.Nil, st)
    | none => (.Okay, st.setRecord k ⟨v, ttl.as_secs⟩)
  | .Update k v ttl =>
    match st.lookup k with
    | some _ => (.Okay, st.setRecord k ⟨v, ttl.as_secs⟩)
    | none => (.Nil, st)
  | .Delete k =>
    match st.lookup k with
    | some _ => (.Int 1, st.delRecord k)
    | none => (.Int 0, st)
  | .Exists k =>
    match st.lookup k with
    | some _ => (.Int 1, st)
    | none => (.Int 0, st)
  | .TTL k =>
    match st.lookup k with
    | some r => (.Int r.ttlSecs, st)
    | none => (.Int (-2), st)

/-- `StoreError` from src/redis_store.rs; the serde_json and redis error
payloads are carried as their message strings. -/
inductive StoreError where
  | BackendError (msg : String)
  | SerializationError (msg : String)
  | RedisError (msg : String)
deriving DecidableEq, Repr

/-- The redis crate's `FromRedisValue` conversion at the unit type, used
by `save` (whose response value is dropped): it ignores the response and
always succeeds. -/
def fromRedisUnit : RedisValue → Except String Unit :=
  fun _ => .ok ()

/-- The redis crate's `FromRedisValue` conversion at `Option<String>`,
used by `load`: nil is `None`, a bulk string is `Some`. -/
def fromRedisOptString : RedisValue → Except String (Option String)
  | .Nil => .ok none
  | .Data s => .ok (some s)
  | .Status s => .ok (some s)
  | .Okay => .ok (some "OK")
  | .Int i => .ok (some (toString i))

/-- `Store::load` (src/redis_store.rs): build the cache key through the
configured key-generation function `kg`, issue `GET`, deserialize a
present payload as a `SessionState` (`sc` models
`serde_json::from_str::<SessionState>`), and wrap it in a `Session`
whose id is the *requested* key. -/
def redisStore_load (kg : SessionKey → String) (sc : Codec SessionState)
    (st : RedisState) (session_key : SessionKey) :
    Except StoreError (Option Session) × RedisState :=
  let cache_key := kg session_key
  let (resp, st2) := redisExec st (Command.Get cache_key)
  match fromRedisOptString resp with
  | .error e => (.error (StoreError.RedisError e), st2)
  | .ok none => (.ok none, st2)
  | .ok (some v) =>
    match sc.decode v with
    | .error e => (.error (StoreError.SerializationError e), st2)
    | .ok state => (.ok (some (Session.mk session_key state)), st2)

/-- `Store::save` (src/redis_store.rs): serialize the session state
(`sc` models `serde_json::to_string`), issue the create-only `SET ... NX
EX ...`, and convert the response at the unit type — the response value
itself is never matched on. -/
def redisStore_save (kg : SessionKey → String) (sc : Codec SessionState)
    (st : RedisState) (session : Session) (timeout : Duration) :
    Except StoreError Unit × RedisState :=
  let cache_key := kg session.id
  match sc.encode session.state with
  | .error e => (.error (StoreError.SerializationError e), st)
  | .ok body =>
    let (resp, st2) := redisExec st (Command.Set cache_key body timeout)
    match fromRedisUnit resp with
    | .ok _ => (.ok (), st2)
    | .error e => (.error (StoreError.RedisError e), st2)

/-- `Store::update` (src/redis_store.rs): serialize the session state,
issue the update-only `SET ... XX EX ...`, and match the response:
`Okay` is success, `Nil` is the backend error "Update returned nil
response data", anything else "Update returned invalid response data". -/
def redisStore_update (kg : SessionKey → String) (sc : Codec SessionState)
    (st : RedisState) (session : Session) (timeout : Duration) :
    Except StoreError Unit × RedisState :=
  let cache_key := kg session.id
  match sc.encode session.state with
  | .error e => (.error (StoreError.SerializationError e), st)
  | .ok body =>
    let (value, st2) := redisExec st (Command.Update cache_key body timeout)
    match value with
    | .Okay => (.ok (), st2)
    | .Nil => (.error (StoreError.BackendError "Update returned nil response data"), st2)
    | _ => (.error (StoreError.BackendError "Update returned invalid response data"), st2)

/-- The store capability `SessionModel` works against (the
`SessionStore` trait of src/session_store.rs plus the `exists` query its
supertraits provide), as explicit state transformers over an abstract
store state `σ` with abstract error type `ε`. -/
structure MStore (σ ε : Type) where
  existsKey : σ → SessionKey → Except ε Bool × σ
  save : σ → Session → Except ε Unit × σ
  update : σ → Session → Except ε Unit × σ
  destroy : σ → SessionKey → Except ε Unit × σ

/-- `SessionModel::save` (src/session_model.rs): query `exists` on the
session's id (propagating its error); if the key exists dispatch the
store's `update`, otherwise the store's `save`; return the dispatched
operation's result. -/
def SessionModel.save (store : MStore σ ε) (s : σ) (session : Session) :
    Except ε Unit × σ :=
  match store.existsKey s session.id with
  | (.error e, s2) => (.error e, s2)
  | (.ok true, s2) => store.update s2 session
  | (.ok false, s2) => store.save s2 session

/-- The charset of the rand crate's `Alphanumeric` distribution, as
ASCII byte values: uppercase letters, lowercase letters, digits. -/
def ALPHANUMERIC_CHARSET : List Nat :=
  [65, 66, 67, 68, 69, 70, 71, 72, 73, 74, 75, 76, 77, 78, 79, 80, 81,
   82, 83, 84, 85, 86, 87, 88, 89, 90,
   97, 98, 99, 100, 101, 102, 103, 104, 105, 106, 107, 108, 109, 110,
   111, 112, 113, 114, 115, 116, 117, 118, 119, 120, 121, 122,
   48, 49, 50, 51, 52, 53, 54, 55, 56, 57]

/-- `OsRng.sample(Alphanumeric)`: one uniformly chosen byte from the
62-character alphanumeric charset; the random outcome is the index. -/
def sampleAlphanumeric (i : Fin 62) : Nat :=
  ALPHANUMERIC_CHARSET.getD i.val 0

/-- Is `b` a UTF-8 continuation byte (0x80–0xBF)? -/
def isCont (b : Nat) : Bool :=
  128 ≤ b && b < 192

/-- Decoding of one multi-byte UTF-8 sequence with lead byte `b` (128 ≤
`b`) followed by `rest`: two-byte leads 0xC2–0xDF; three-byte leads
0xE0–0xEF with overlong and surrogate exclusions; four-byte leads
0xF0–0xF4 with overlong and beyond-U+10FFFF exclusions; yields the
decoded scalar and the remaining bytes, or `none` on invalid input. -/
def utf8StepMulti (b : Nat) (rest : List Nat) : Option (Char × List Nat) :=
  if 194 ≤ b ∧ b ≤ 223 then
    match rest with
    | b2 :: rest2 =>
      if isCont b2 then some (Char.ofNat ((b - 192) * 64 + (b2 - 128)), rest2) else none
    | [] => none
  else if 224 ≤ b ∧ b ≤ 239 then
    match rest with
    | b2 :: b3 :: rest3 =>
      if isCont b2 ∧ isCont b3 ∧ (b ≠ 224 ∨ 160 ≤ b2) ∧ (b ≠ 237 ∨ b2 < 160) then
        some (Char.ofNat ((b - 224) * 4096 + (b2 - 128) * 64 + (b3 - 128)), rest3)
      else none
    | _ => none
  else if 240 ≤ b ∧ b ≤ 244 then
    match rest with
    | b2 :: b3 :: b4 :: rest4 =>
      if isCont b2 ∧ isCont b3 ∧ isCont b4 ∧ (b ≠ 240 ∨ 144 ≤ b2) ∧ (b ≠ 244 ∨ b2 < 144) then
        some (Char.ofNat ((b - 240) * 262144 + (b2 - 128) * 4096
          + (b3 - 128) * 64 + (b4 - 128)), rest4)
      else none
    | _ => none
  else none

/-- Decoding of one UTF-8 sequence: a byte below 0x80 stands alone,
anything else is a multi-byte lead. -/
def utf8Step : List Nat → Option (Char × List Nat)
  | [] => none
  | b :: rest =>
    if b < 128 then some (Char.ofNat b, rest) else utf8StepMulti b rest

/-- Sequence decoding with fuel; each step consumes at least one byte,
so fuel equal to the byte count never runs out. -/
def utf8DecodeAux : Nat → List Nat → Option (List Char)
  | _, [] => some []
  | 0, _ :: _ => none
  | fuel + 1, b :: rest =>
    match utf8Step (b :: rest) with
    | some (c, rest2) => (utf8DecodeAux fuel rest2).map (fun cs => c :: cs)
    | none => none

/-- Rust `String::from_utf8` validation and decoding on a byte list;
`none` models `Err(FromUtf8Error)`. -/
def utf8Decode (bs : List Nat) : Option (List Char) :=
  utf8DecodeAux bs.length bs

/-- `SessionKey::generate`, the sampling stage
(src/session_store/session_key.rs): 64 bytes drawn from the alphanumeric
distribution; `rng` is the sequence of random outcomes delivered by the
OS random source. -/
def SessionKey.generateBytes (rng : Fin 64 → Fin 62) : List Nat :=
  List.ofFn fun i => sampleAlphanumeric (rng i)

/-- `SessionKey::generate` (src/session_store/session_key.rs): collect
the 64 sampled bytes and run them through `String::from_utf8`; `none`
models the panic of the `.unwrap()` on the conversion's error branch. -/
def SessionKey.generate (rng : Fin 64 → Fin 62) : Option SessionKey :=
  (utf8Decode (SessionKey.generateBytes rng)).map
    (fun cs => SessionKey.mk (String.mk cs))

/-- One typed accessor call on a `Session`, with its own field type and
codec (the Rust call sites instantiate `Storage<&str>`'s generic `T`
independently at each call). -/
inductive SessionOp : Type 1 where
  | ins : (α : Type) → Codec α → String → α → SessionOp
  | del : (α : Type) → Codec α → String → SessionOp
  | read : (α : Type) → Codec α → String → SessionOp

/-- Apply one typed accessor to a session: `insert` leaves the session
unchanged when serialization fails (the source fails before touching the
state), `remove` keeps the state mutation regardless of decode outcome,
and `get` takes `&self` and never mutates. -/
def SessionOp.apply (s : Session) : SessionOp → Session
  | .ins _ c k v =>
    match Session.insert c s k v with
    | .ok s2 => s2
    | .error _ => s
  | .del _ c k => (Session.remove c s k).snd
  | .read _ _ _ => s

/-- A sequence of typed accessor calls, applied in order. -/
def Session.applyOps (s : Session) (ops : List SessionOp) : Session :=
  ops.foldl SessionOp.apply s

/-- Test fixtures and helper lemmas. -/
def natCodec : Codec Nat where
  encode := fun n => .ok (toString n)
  decode := fun s =>
    match s.toNat? with
    | some n => .ok n
    | none => .error "invalid number"

def boolCodec : Codec Bool where
  encode := fun b => .ok (cond b "true" "false")
  decode := fun s =>
    if s = "true" then .ok true
    else if s = "false" then .ok false
    else .error "invalid boolean"

def trivialStateCodec : Codec SessionState where
  encode := fun _ => .ok "state"
  decode := fun _ => .ok ⟨[]⟩

def testKey : SessionKey := ⟨"session-1"⟩

def testSession : Session := ⟨testKey, ⟨[("user_id", "abc-123")]⟩⟩

def emptyRedis : RedisState := ⟨[]⟩

def ttl60 : Duration := ⟨60, 0⟩

theorem lookup_filter_ne {β : Type} (k k2 : String) (h : k2 ≠ k) :
    ∀ l : List (String × β),
      (l.filter (fun p => p.fst != k)).lookup k2 = l.lookup k2
  | [] => rfl
  | (a, b) :: t => by
    have ih := lookup_filter_ne k k2 h t
    by_cases hak : a = k
    · have hf : (a != k) = false := by simp [hak]
      have hk2 : (k2 == a) = false := by rw [hak]; simp [h]
      simp [List.filter, List.lookup, hf, hk2, ih]
    · have ht : (a != k) = true := by simp [hak]
      simp [List.filter, List.lookup, ht, ih]

theorem SessionState.get_insert_self (s : SessionState) (k v : String) :
    (s.insert k v).get k = some v := by
  simp [SessionState.insert, SessionState.get, List.lookup]

theorem SessionState.get_insert_ne (s : SessionState) (k k2 v : String) (h : k2 ≠ k) :
    (s.insert k v).get k2 = s.get k2 := by
  have hk2 : (k2 == k) = false := by simp [h]
  simp [SessionState.insert, SessionState.get, List.lookup, hk2,
    lookup_filter_ne k k2 h s.map]

/-- C3: the Command-to-wire translation maps each store operation to
exactly one backend command with exactly these argument lists: Get to
GET key; Set to SET key value NX EX secs; Update to SET key value XX EX
secs; Delete to DEL key; Exists to EXISTS key; TTL to TTL key. -/
theorem command_wire_mapping (c : Command) :
    (Command.toRedisCmd c).args = specCommandWire c := by
  cases c <;> rfl

/-- C2: when the SET XX conditional write of `update` answers nil (the
target key is absent), `update` returns the distinguished backend error
"Update returned nil response data", never success; when the backend
answers Okay (key present), `update` returns success. -/
theorem redisStore_update_nil_error_okay_success
    (kg : SessionKey → String) (sc : Codec SessionState) (st : RedisState)
    (session : Session) (timeout : Duration) (body : String)
    (henc : sc.encode session.state = .ok body) :
    (st.lookup (kg session.id) = none →
      redisStore_update kg sc st session timeout =
        (.error (StoreError.BackendError "Update returned nil response data"), st)) ∧
    (∀ r : RedisRecord, st.lookup (kg session.id) = some r →
      redisStore_update kg sc st session timeout =
        (.ok (), st.setRecord (kg session.id) ⟨body, timeout.as_secs⟩)) := by
  constructor
  · intro h
    simp [redisStore_update, redisExec, henc, h]
  · intro r h
    simp [redisStore_update, redisExec, henc, h]

theorem redisStore_update_nil_error_okay_success_witness :
    trivialStateCodec.encode testSession.state = .ok "state" ∧
    emptyRedis.lookup (SessionKey.as_ref testSession.id) = none ∧
    redisStore_update SessionKey.as_ref trivialStateCodec emptyRedis testSession ttl60 =
      (.error (StoreError.BackendError "Update returned nil response data"), emptyRedis) :=
  ⟨rfl, rfl,
    (redisStore_update_nil_error_okay_success SessionKey.as_ref trivialStateCodec
      emptyRedis testSession ttl60 "state" rfl).1 rfl⟩

/-- The backend state after a first `save` of `testSession` into an
empty backend. -/
def c1_afterFirstSave : RedisState :=
  (redisStore_save SessionKey.as_ref trivialStateCodec emptyRedis testSession ttl60).snd

/-- C1 counterexample: two `save` calls with the same session key — the
first succeeds, and the second ALSO returns success (`Ok(())`): the SET
NX response is converted at the unit type and never inspected, so no
"key already exists" error reaches the caller. -/
theorem second_save_succeeds_counterexample :
    (redisStore_save SessionKey.as_ref trivialStateCodec emptyRedis testSession ttl60).fst
        = .ok () ∧
    (redisStore_save SessionKey.as_ref trivialStateCodec c1_afterFirstSave testSession ttl60).fst
        = .ok () :=
  ⟨rfl, rfl⟩

/-- C1 amended: a second `save` on an existing key is a backend no-op —
the SET NX write leaves the backend state completely unchanged — but the
call reports success; its nil response is dropped by the unit
conversion, not surfaced as an error. -/
theorem redisStore_save_noop_when_present
    (kg : SessionKey → String) (sc : Codec SessionState) (st : RedisState)
    (session : Session) (timeout : Duration) (body : String) (r : RedisRecord)
    (henc : sc.encode session.state = .ok body)
    (hpres : st.lookup (kg session.id) = some r) :
    redisStore_save kg sc st session timeout = (.ok (), st) := by
  simp [redisStore_save, redisExec, henc, hpres, fromRedisUnit]

theorem redisStore_save_noop_when_present_witness :
    trivialStateCodec.encode testSession.state = .ok "state" ∧
    c1_afterFirstSave.lookup (SessionKey.as_ref testSession.id) = some ⟨"state", 60⟩ ∧
    redisStore_save SessionKey.as_ref trivialStateCodec c1_afterFirstSave testSession ttl60 =
      (.ok (), c1_afterFirstSave) :=
  ⟨rfl, rfl,
    redisStore_save_noop_when_present SessionKey.as_ref trivialStateCodec
      c1_afterFirstSave testSession ttl60 "state" ⟨"state", 60⟩ rfl rfl⟩

/-- C9: whenever `load(key)` returns a session, that session's id is the
requested key — the identifier comes from the caller's argument, never
from the stored payload. -/
theorem redisStore_load_id_is_requested_key
    (kg : SessionKey → String) (sc : Codec SessionState) (st : RedisState)
    (key : SessionKey) (session : Session)
    (h : (redisStore_load kg sc st key).fst = .ok (some session)) :
    session.id = key := by
  cases hlk : st.lookup (kg key) with
  | none =>
    simp [redisStore_load, redisExec, hlk, fromRedisOptString] at h
  | some r =>
    simp [redisStore_load, redisExec, hlk, fromRedisOptString] at h
    cases hdec : sc.decode r.value with
    | error e => simp [hdec] at h
    | ok state =>
      simp [hdec] at h
      rw [← h]

/-- A backend state holding one record under the test key. -/
def c9_store : RedisState := ⟨[("session-1", ⟨"payload", 60⟩)]⟩

theorem redisStore_load_id_is_requested_key_witness :
    (redisStore_load SessionKey.as_ref trivialStateCodec c9_store testKey).fst
        = .ok (some ⟨testKey, ⟨[]⟩⟩) ∧
    (Session.mk testKey ⟨[]⟩).id = testKey :=
  ⟨rfl,
    redisStore_load_id_is_requested_key SessionKey.as_ref trivialStateCodec
      c9_store testKey ⟨testKey, ⟨[]⟩⟩ rfl⟩

/-- A session whose stored raw value for "count" is not valid for
`natCodec`. -/
def c4_session : Session := ⟨testKey, ⟨[("count", "garbage")]⟩⟩

/-- C4 counterexample: the prior raw value "garbage" does not decode
under the field's codec, yet `Session::insert` succeeds — returning no
previous value at all (the Rust method's success value is `()`), instead
of failing with a `DeserializationError` or returning the decoded prior
value. -/
theorem insert_ignores_previous_value_counterexample :
    boolCodec.decode "garbage" = .error "invalid boolean" ∧
    Session.insert boolCodec c4_session "count" true =
      .ok ⟨testKey, ⟨[("count", "true")]⟩⟩ :=
  ⟨rfl, rfl⟩

/-- C4 amended: `Session::insert` serializes the new value, failing with
`SerializeError(field, cause)` when serialization fails; otherwise it
overwrites the field with the serialized string and succeeds (the Rust
return value is `()`): the previous raw value is discarded unexamined —
never returned and never deserialized. -/
theorem session_insert_behavior (c : Codec α) (s : Session) (k : String) (v : α) :
    (∀ e, c.encode v = .error e →
      Session.insert c s k v =
        .error (StorageError.insertErr (StorageInsertError.SerializeError k e))) ∧
    (∀ body, c.encode v = .ok body →
      ∃ s2, Session.insert c s k v = .ok s2 ∧
        s2.id = s.id ∧
        s2.state.get k = some body ∧
        ∀ k2, k2 ≠ k → s2.state.get k2 = s.state.get k2) := by
  constructor
  · intro e h
    simp [Session.insert, h]
  · intro body h
    refine ⟨{ s with state := s.state.insert k body }, ?_, rfl, ?_, ?_⟩
    · simp [Session.insert, h]
    · exact SessionState.get_insert_self s.state k body
    · intro k2 hk2
      exact SessionState.get_insert_ne s.state k k2 body hk2

theorem session_insert_behavior_witness :
    natCodec.encode 5 = .ok "5" ∧
    (∃ s2, Session.insert natCodec c4_session "count" 5 = .ok s2 ∧
      s2.id = c4_session.id ∧
      s2.state.get "count" = some "5" ∧
      ∀ k2, k2 ≠ "count" → s2.state.get k2 = c4_session.state.get k2) :=
  ⟨rfl, (session_insert_behavior natCodec c4_session "count" 5).2 "5" rfl⟩

/-- A field type is supported when every value serializes and the
serialization decodes back to the same value — the claim's "types whose
JSON serialization round-trips". -/
def Codec.Supported (c : Codec α) : Prop :=
  ∀ a : α, ∃ s : String, c.encode a = .ok s ∧ c.decode s = .ok a

/-- C5: round-trip — for every supported field type, field name and
value, `insert` on a session succeeds and a subsequent `get` of the same
field on the resulting session yields `Ok(Some(v))`. -/
theorem insert_get_roundtrip (c : Codec α) (hc : c.Supported)
    (s : Session) (k : String) (v : α) :
    ∃ s2, Session.insert c s k v = .ok s2 ∧
      Session.get c s2 k = .ok (some v) := by
  obtain ⟨body, henc, hdec⟩ := hc v
  refine ⟨{ s with state := s.state.insert k body }, ?_, ?_⟩
  · simp [Session.insert, henc]
  · simp [Session.get, SessionState.get_insert_self, hdec]

theorem insert_get_roundtrip_witness :
    boolCodec.Supported ∧
    (∃ s2, Session.insert boolCodec testSession "flag" true = .ok s2 ∧
      Session.get boolCodec s2 "flag" = .ok (some true)) := by
  have hsup : boolCodec.Supported := by
    intro a
    cases a
    · exact ⟨"false", rfl, rfl⟩
    · exact ⟨"true", rfl, rfl⟩
  exact ⟨hsup, insert_get_roundtrip boolCodec hsup testSession "flag" true⟩

/-- C6: `SessionModel::save` dispatch — the model first queries `exists`
on its session's key; a store whose `exists` errors propagates that
error, `exists = true` dispatches the store's `update`, `exists = false`
dispatches the store's `save`, and in both cases the model returns
exactly the dispatched operation's result. -/
theorem sessionModel_save_dispatch {σ ε : Type} (store : MStore σ ε)
    (s s2 : σ) (session : Session) :
    (∀ e, store.existsKey s session.id = (.error e, s2) →
      SessionModel.save store s session = (.error e, s2)) ∧
    (store.existsKey s session.id = (.ok true, s2) →
      SessionModel.save store s session = store.update s2 session) ∧
    (store.existsKey s session.id = (.ok false, s2) →
      SessionModel.save store s session = store.save s2 session) := by
  refine ⟨?_, ?_, ?_⟩
  · intro e h
    simp [SessionModel.save, h]
  · intro h
    simp [SessionModel.save, h]
  · intro h
    simp [SessionModel.save, h]

/-- A concrete store over state `Nat`: a key "exists" when the counter
is positive; `save` bumps the counter. -/
def testMStore : MStore Nat String where
  existsKey := fun s _ => (.ok (decide (0 < s)), s)
  save := fun s _ => (.ok (), s + 1)
  update := fun s _ => (.ok (), s)
  destroy := fun s _ => (.ok (), s)

theorem sessionModel_save_dispatch_witness :
    testMStore.existsKey 0 testSession.id = (.ok false, 0) ∧
    SessionModel.save testMStore 0 testSession = testMStore.save 0 testSession :=
  ⟨rfl, (sessionModel_save_dispatch testMStore 0 0 testSession).2.2 rfl⟩

theorem Session.remove_snd (c : Codec α) (s : Session) (k : String) :
    (Session.remove c s k).snd = { s with state := (s.state.remove k).snd } := by
  unfold Session.remove
  split
  rename_i prev st2 heq
  rw [heq]
  cases prev with
  | none => rfl
  | some v =>
    dsimp only
    cases c.decode v <;> rfl

theorem sessionOp_apply_id (s : Session) (op : SessionOp) :
    (SessionOp.apply s op).id = s.id := by
  cases op with
  | ins α c k v =>
    cases henc : c.encode v with
    | error e => simp [SessionOp.apply, Session.insert, henc]
    | ok body => simp [SessionOp.apply, Session.insert, henc, SessionState.insert]
  | del α c k =>
    show (Session.remove c s k).snd.id = s.id
    rw [Session.remove_snd]
  | read α c k => rfl

/-- C8: frame condition on the session key — applying any sequence of
typed accessor operations (`insert` / `remove` / `get`), in any order,
with any field names, codecs and values, leaves `session.id` unchanged. -/
theorem session_id_frame (s : Session) (ops : List SessionOp) :
    (Session.applyOps s ops).id = s.id := by
  induction ops generalizing s with
  | nil => rfl
  | cons op rest ih =>
    have h1 : Session.applyOps s (op :: rest)
        = Session.applyOps (SessionOp.apply s op) rest := rfl
    rw [h1, ih, sessionOp_apply_id]

theorem utf8DecodeAux_ascii :
    ∀ (fuel : Nat) (bs : List Nat), (∀ b ∈ bs, b < 128) → bs.length ≤ fuel →
      utf8DecodeAux fuel bs = some (bs.map Char.ofNat)
  | fuel, [], _, _ => by cases fuel <;> rfl
  | 0, b :: t, _, hlen => by simp at hlen
  | fuel + 1, b :: t, h, hlen => by
    have hb : b < 128 := h b (List.mem_cons_self b t)
    have ht : ∀ x ∈ t, x < 128 := fun x hx => h x (List.mem_cons_of_mem b hx)
    have hlen2 : t.length ≤ fuel := by simpa using hlen
    simp [utf8DecodeAux, utf8Step, hb, utf8DecodeAux_ascii fuel t ht hlen2]

theorem utf8Decode_ascii (bs : List Nat) (h : ∀ b ∈ bs, b < 128) :
    utf8Decode bs = some (bs.map Char.ofNat) :=
  utf8DecodeAux_ascii bs.length bs h le_rfl

theorem charset_ascii_alphanum :
    ∀ b ∈ ALPHANUMERIC_CHARSET, b < 128 ∧ (Char.ofNat b).isAlphanum = true := by
  decide

theorem sampleAlphanumeric_mem (i : Fin 62) :
    sampleAlphanumeric i ∈ ALPHANUMERIC_CHARSET := by
  have hi : i.val < ALPHANUMERIC_CHARSET.length := by
    have h62 : ALPHANUMERIC_CHARSET.length = 62 := rfl
    rw [h62]
    exact i.isLt
  rw [sampleAlphanumeric, List.getD_eq_getElem ALPHANUMERIC_CHARSET 0 hi]
  exact List.getElem_mem hi

theorem generateBytes_mem (rng : Fin 64 → Fin 62) :
    ∀ b ∈ SessionKey.generateBytes rng, b ∈ ALPHANUMERIC_CHARSET := by
  intro b hb
  rw [SessionKey.generateBytes, List.mem_ofFn] at hb
  obtain ⟨i, hi⟩ := hb
  rw [← hi]
  exact sampleAlphanumeric_mem (rng i)

/-- C10: the `.unwrap()` on `String::from_utf8` inside
`SessionKey::generate` is unreachable as a failure — for every outcome
of the random source, the 64 sampled alphanumeric bytes are ASCII, so
UTF-8 decoding succeeds (byte-per-character), and `generate` never hits
the error branch. -/
theorem generate_utf8_never_fails (rng : Fin 64 → Fin 62) :
    utf8Decode (SessionKey.generateBytes rng)
        = some ((SessionKey.generateBytes rng).map Char.ofNat) ∧
    (SessionKey.generate rng).isSome = true := by
  have hlt : ∀ b ∈ SessionKey.generateBytes rng, b < 128 := fun b hb =>
    (charset_ascii_alphanum b (generateBytes_mem rng b hb)).1
  have hdec := utf8Decode_ascii (SessionKey.generateBytes rng) hlt
  refine ⟨hdec, ?_⟩
  simp [SessionKey.generate, hdec]

/-- C7: every key produced by `SessionKey::generate` is exactly 64
characters long, every character is alphanumeric, and generation has no
error path (a key is produced for every outcome of the random source). -/
theorem generate_key_64_alphanumeric (rng : Fin 64 → Fin 62) :
    ∃ k : SessionKey, SessionKey.generate rng = some k ∧
      k.val.length = 64 ∧ ∀ c ∈ k.val.data, c.isAlphanum = true := by
  have hmem := generateBytes_mem rng
  have hlt : ∀ b ∈ SessionKey.generateBytes rng, b < 128 := fun b hb =>
    (charset_ascii_alphanum b (hmem b hb)).1
  have hdec := utf8Decode_ascii (SessionKey.generateBytes rng) hlt
  refine ⟨⟨String.mk ((SessionKey.generateBytes rng).map Char.ofNat)⟩, ?_, ?_, ?_⟩
  · rw [SessionKey.generate, hdec]
    rfl
  · show ((SessionKey.generateBytes rng).map Char.ofNat).length = 64
    rw [List.length_map, SessionKey.generateBytes, List.length_ofFn]
  · intro c hc
    have hc2 : c ∈ (SessionKey.generateBytes rng).map Char.ofNat := hc
    obtain ⟨b, hb, hbc⟩ := List.mem_map.mp hc2
    rw [← hbc]
    exact (charset_ascii_alphanum b (hmem b hb)).2
